import Mathlib

/-
Verification of the `delta_derive` code generator (src/delta_derive/src/lib.rs).

The generator is a Rust procedural macro: given a struct or enum declaration it
emits a description type (`<T>Desc`), a change type (`<T>Change`) and an
implementation of the `delta::Delta` trait.  We embed it in two layers:

* a syntactic layer transcribing the generation functions (`gather_attrs`,
  `field_names_and_types`, `process_struct`, `process_enum`, `impl_delta`,
  `define_enum_from_fields`, `definition`) over a model of `syn`'s input types,
  producing structured declarations instead of token streams; and

* a runtime layer interpreting the generated `delta` bodies (which the macro
  emits as one of a fixed family of shapes) against abstract per-field
  comparison functions.  The containers of the `delta` core crate (`Changed`,
  `EnumChange`) are not part of the sources being verified and are modelled
  from the specification.
-/

set_option autoImplicit false

namespace DeltaDerive

/-- Modelled from external syn: the visibility of a Rust item
(`syn::Visibility`).  `inherited` is the absence of a `pub` qualifier,
i.e. a private item. -/
inductive Visibility where
  | pub
  | inherited
  | restricted (path : String)
deriving DecidableEq

/-- Modelled from external syn: one attribute, e.g. `#[describe_type(T)]`.
`path` is the attribute name, `payload` its argument tokens, and
`payloadParses` abstracts whether syn's `parse_args` (as `syn::Type` for
`describe_type`, as `syn::Expr` for `describe_body`) succeeds on the payload;
the parser itself belongs to the external syn crate. -/
structure Attribute where
  path : String
  payload : String
  payloadParses : Bool
deriving DecidableEq

/-- The types that appear in generated declarations: source type references
plus the forms produced by the generator (`quote!` fragments in lib.rs). -/
inductive RustType where
  | unit
  | path (s : String)
  | selfTy
  | selfDesc
  | selfChange
  | custom (tokens : String)
  | assocDesc (t : RustType)
  | assocChange (t : RustType)
  | changed (t : RustType)
  | vec (t : RustType)
  | enumChange (d c : RustType)
deriving DecidableEq

/-- Modelled from external syn: a named struct/variant field. -/
structure NamedField where
  ident : String
  attrs : List Attribute
  ty : RustType
deriving DecidableEq

/-- Modelled from external syn: an unnamed (tuple) field. -/
structure UnnamedField where
  attrs : List Attribute
  ty : RustType
deriving DecidableEq

/-- Modelled from external syn: `syn::Fields`. -/
inductive Fields where
  | named (fs : List NamedField)
  | unnamed (fs : List UnnamedField)
  | unit
deriving DecidableEq

/-- Modelled from external syn: one enum variant. -/
structure Variant where
  ident : String
  attrs : List Attribute
  fields : Fields
deriving DecidableEq

/-- Modelled from external syn: the data of a `DeriveInput`. -/
inductive Data where
  | struct (fields : Fields)
  | enum (variants : List Variant)
  | union
deriving DecidableEq

/-- Modelled from external syn: `syn::DeriveInput`. -/
structure DeriveInput where
  ident : String
  vis : Visibility
  attrs : List Attribute
  data : Data
deriving DecidableEq

/-- lib.rs `has_attr`: the first attribute whose path matches. -/
def has_attr (attrs : List Attribute) (attr_name : String) : Option Attribute :=
  attrs.find? fun a => a.path == attr_name

/-- The generation-time failures of lib.rs, raised there as panics: the
`panic!` for unions in `impl_delta` and the `.expect` calls on attribute
parsing in `gather_attrs`.  The constructor records which annotation was at
fault, and the message is the panic message of the source. -/
inductive GenError where
  | parseFailure (attrName : String) (msg : String)
  | unionsUnsupported (msg : String)
deriving DecidableEq

/-- The panic message of the `describe_type` parse failure (lib.rs:80). -/
def msg_describe_type : String := "Failed to parse \x22describe_type\x22 attribute"

/-- The panic message of the `describe_body` parse failure (lib.rs:94). -/
def msg_describe_body : String := "Failed to parse \x22describe_body\x22 attribute"

/-- The panic message for union inputs (lib.rs:53). -/
def msg_unions : String := "Delta derivation not yet implemented for unions"

/-- The describe body emitted into the generated `Delta::describe`. -/
inductive DescArm where
  | named (vname : String) (fieldIdents : List String)
  | unnamed (vname : String) (arity : Nat)
  | unit (vname : String)
deriving DecidableEq

/-- The four describe-body forms produced by `gather_attrs`, plus the
case-by-case match produced by `process_enum` (each arm maps one variant of
the source to the same variant of the Desc mirror, calling `.describe()` on
every field). -/
inductive DescribeCode where
  | unitVal
  | custom (tokens : String)
  | defaultDelta (typeName : String)
  | cloneSelf
  | enumMatch (arms : List DescArm)
deriving DecidableEq

/-- lib.rs `FieldInfo`: one non-ignored field of a struct.  `name` is the
field identifier (for named fields) or the rendered index (for tuple fields);
`idx` is the declaration position of the field among all fields of the
struct, which is how the runtime layer addresses `self.<name>`. -/
structure FieldInfo where
  name : String
  idx : Nat
  pascal_case : String
  ty : RustType
deriving DecidableEq

/-- One arm of the generated `delta` match for an enum.  `same k vname n`
is the arm `(T::V{..}, T::V{..}) => { let change = ...; if
change.is_unchanged() ... }` for the variant `V` at declaration index `k`
with `n` fields; `unitSame` is the arm `(T::V, T::V) => Unchanged` for a unit
variant; `fallback` is the final `(_, _) => Changed(DiffVariant(...))` arm. -/
inductive EnumArm where
  | same (variantIdx : Nat) (vname : String) (arity : Nat)
  | unitSame (variantIdx : Nat) (vname : String)
  | fallback
deriving DecidableEq

/-- The compare bodies the macro can emit: `delta::Changed::Unchanged` for an
empty struct, a single `.delta(..).map(Ctor)` for a one-field struct, the
collect-into-`Vec` body for a multi-field struct, and the match over variant
pairs for an enum. -/
inductive CompareCode where
  | constUnchanged
  | singleMap (info : FieldInfo) (changeName : String)
  | collect (changeName : String) (infos : List FieldInfo)
  | enumMatch (arms : List EnumArm)
deriving DecidableEq

/-- One item inside a generated declaration body: a typed struct field, a
bare (tuple) field type, or an enum case of the three shapes. -/
inductive GenItem where
  | namedField (ident : String) (ty : RustType)
  | bareField (ty : RustType)
  | caseNamed (ident : String) (fields : List (String × RustType))
  | caseUnnamed (ident : String) (tys : List RustType)
  | caseUnit (ident : String)
deriving DecidableEq

/-- A generated type declaration, as produced by lib.rs `definition`: the
source function only chooses between brace/paren/unit concrete syntax from
the body length and the `use_unnamed_fields` flag, so we keep those inputs
as data. -/
structure GenDef where
  vis : Visibility
  keyword : String
  name : String
  useUnnamedFields : Bool
  body : List GenItem
deriving DecidableEq

/-- lib.rs `definition`. -/
def definition (vis : Visibility) (keyword : String) (name : String)
    (use_unnamed_fields : Bool) (body : List GenItem) : GenDef :=
  { vis := vis, keyword := keyword, name := name,
    useUnnamedFields := use_unnamed_fields, body := body }

/-- The `impl delta::Delta for T` block produced by `define_delta_impl`. -/
structure DeltaImpl where
  typeName : String
  descType : RustType
  descBody : DescribeCode
  changeType : RustType
  changeBody : CompareCode
deriving DecidableEq

/-- Everything one derive invocation emits: the generated type declarations,
the visibility of the generated `is_unchanged` function (enums only), and the
trait implementation. -/
structure Generated where
  defs : List GenDef
  isUnchangedVis : Option Visibility
  impl : DeltaImpl
deriving DecidableEq

/-- lib.rs `Attributes`, the output of `gather_attrs`. -/
structure Attributes where
  visibility : Visibility
  type_name : String
  desc_name : String
  desc_type : RustType
  desc_body : DescribeCode
  change_name : String
deriving DecidableEq

/-- Split a character list into underscore-separated words (the separators
are dropped). -/
def split_words : List Char → List Char → List (List Char)
  | [], acc => [acc.reverse]
  | c :: cs, acc =>
      if c = Char.ofNat 95 then acc.reverse :: split_words cs []
      else split_words cs (c :: acc)

/-- Capitalize one word: first letter uppercased, the rest lowercased. -/
def capitalize_word : List Char → List Char
  | [] => []
  | c :: cs => c.toUpper :: cs.map Char.toLower

/-- Modelled from the external convert_case crate as it behaves on Rust
snake_case identifiers (`name.to_case(Case::Pascal)`): split on underscores,
capitalize the first letter of each word and lowercase the rest. -/
def to_pascal (s : String) : String :=
  String.mk ((split_words s.data []).map capitalize_word).flatten

/-- lib.rs `gather_attrs`.  Visibility: `delta_private` wins over
`delta_public`, which wins over the declared visibility.  The describe type
and describe body are resolved independently, each by the first matching
rule: `no_description`, then the custom annotation (whose payload must parse,
else panic), then `compare_default`, then the plain clone/`Self` default.
The source panics are modelled as `Except.error`; the describe type is
resolved before the describe body, as in the source. -/
def gather_attrs (input : DeriveInput) : Except GenError Attributes :=
  let type_name := input.ident
  let desc_name := type_name ++ "Desc"
  let visibility :=
    if (has_attr input.attrs "delta_private").isSome then Visibility.inherited
    else if (has_attr input.attrs "delta_public").isSome then Visibility.pub
    else input.vis
  let compare_default := (has_attr input.attrs "compare_default").isSome
  let descTypeRes : Except GenError RustType :=
    if (has_attr input.attrs "no_description").isSome then Except.ok RustType.unit
    else
      match has_attr input.attrs "describe_type" with
      | some a =>
          if a.payloadParses then Except.ok (RustType.custom a.payload)
          else Except.error (GenError.parseFailure "describe_type" msg_describe_type)
      | none =>
          if compare_default then Except.ok RustType.selfChange
          else Except.ok RustType.selfTy
  let descBodyRes : Except GenError DescribeCode :=
    if (has_attr input.attrs "no_description").isSome then Except.ok DescribeCode.unitVal
    else
      match has_attr input.attrs "describe_body" with
      | some a =>
          if a.payloadParses then Except.ok (DescribeCode.custom a.payload)
          else Except.error (GenError.parseFailure "describe_body" msg_describe_body)
      | none =>
          if compare_default then Except.ok (DescribeCode.defaultDelta type_name)
          else Except.ok DescribeCode.cloneSelf
  match descTypeRes with
  | Except.error e => Except.error e
  | Except.ok dt =>
      match descBodyRes with
      | Except.error e => Except.error e
      | Except.ok db =>
          Except.ok { visibility := visibility, type_name := type_name,
                      desc_name := desc_name, desc_type := dt, desc_body := db,
                      change_name := type_name ++ "Change" }

/-- lib.rs `field_names_and_types`, named case: iterate the declared fields,
skip those carrying `delta_ignore`, record the identifier, its Pascal-case
form, the field type, and the declaration index used for field access. -/
def named_field_infos : List NamedField → Nat → List FieldInfo
  | [], _ => []
  | f :: fs, i =>
      if (has_attr f.attrs "delta_ignore").isSome then named_field_infos fs (i + 1)
      else { name := f.ident, idx := i, pascal_case := to_pascal f.ident, ty := f.ty }
             :: named_field_infos fs (i + 1)

/-- lib.rs `field_names_and_types`, unnamed case: the index counts every
declared field (the source zips `0usize..` before filtering), so an ignored
field still advances the positions of those after it. -/
def unnamed_field_infos : List UnnamedField → Nat → List FieldInfo
  | [], _ => []
  | f :: fs, i =>
      if (has_attr f.attrs "delta_ignore").isSome then unnamed_field_infos fs (i + 1)
      else { name := toString i, idx := i, pascal_case := "Field" ++ toString i, ty := f.ty }
             :: unnamed_field_infos fs (i + 1)

/-- lib.rs `field_names_and_types`. -/
def field_names_and_types : Fields → List FieldInfo
  | Fields.named fs => named_field_infos fs 0
  | Fields.unnamed fs => unnamed_field_infos fs 0
  | Fields.unit => []

/-- lib.rs `define_enum_from_fields`: the change enum of a multi-field
struct, one unnamed case per non-ignored field wrapping that field's
associated `Change` type. -/
def define_enum_from_fields (vis : Visibility) (name : String) (fields : Fields) : GenDef :=
  definition vis "enum" name false
    ((field_names_and_types fields).map fun fi =>
      GenItem.caseUnnamed fi.pascal_case [RustType.assocChange fi.ty])

/-- lib.rs `process_struct`: dispatch on the number of non-ignored fields. -/
def process_struct (attrs : Attributes) (st : Fields) : Generated :=
  match field_names_and_types st with
  | [] =>
      { defs := [], isUnchangedVis := none,
        impl := { typeName := attrs.type_name, descType := attrs.desc_type,
                  descBody := attrs.desc_body, changeType := RustType.unit,
                  changeBody := CompareCode.constUnchanged } }
  | [fi] =>
      { defs := [definition attrs.visibility "struct" attrs.change_name false
                   [GenItem.bareField (RustType.assocChange fi.ty)]],
        isUnchangedVis := none,
        impl := { typeName := attrs.type_name, descType := attrs.desc_type,
                  descBody := attrs.desc_body,
                  changeType := RustType.path attrs.change_name,
                  changeBody := CompareCode.singleMap fi attrs.change_name } }
  | name_and_types =>
      { defs := [define_enum_from_fields attrs.visibility attrs.change_name st],
        isUnchangedVis := none,
        impl := { typeName := attrs.type_name, descType := attrs.desc_type,
                  descBody := attrs.desc_body,
                  changeType := RustType.vec (RustType.path attrs.change_name),
                  changeBody := CompareCode.collect attrs.change_name name_and_types } }

/-- lib.rs `process_enum`, variant filter: only a `delta_ignore` attribute on
the variant itself suppresses generation for it.  Note that the source does
not filter `delta_ignore` on the *fields* of a variant (its own comment at
lib.rs:227 records this as missing). -/
def variant_is_ignored (v : Variant) : Bool :=
  (has_attr v.attrs "delta_ignore").isSome

/-- lib.rs `process_enum`, `desc_innards`: one Desc case per non-ignored
variant, every field type replaced by its associated `Desc` type.  The
per-field `delta_ignore` attribute is not consulted, as in the source. -/
def desc_innard_for (v : Variant) : GenItem :=
  match v.fields with
  | Fields.named fs =>
      GenItem.caseNamed v.ident (fs.map fun f => (f.ident, RustType.assocDesc f.ty))
  | Fields.unnamed fs =>
      GenItem.caseUnnamed v.ident (fs.map fun f => RustType.assocDesc f.ty)
  | Fields.unit => GenItem.caseUnit v.ident

def enum_desc_innards : List Variant → List GenItem
  | [] => []
  | v :: vs =>
      if variant_is_ignored v then enum_desc_innards vs
      else desc_innard_for v :: enum_desc_innards vs

/-- lib.rs `process_enum`, `change_innards`: one Change case per non-ignored
variant, every field type replaced by `delta::Changed<<ty as Delta>::Change>`.
The per-field `delta_ignore` attribute is not consulted, as in the source. -/
def change_innard_for (v : Variant) : GenItem :=
  match v.fields with
  | Fields.named fs =>
      GenItem.caseNamed v.ident
        (fs.map fun f => (f.ident, RustType.changed (RustType.assocChange f.ty)))
  | Fields.unnamed fs =>
      GenItem.caseUnnamed v.ident
        (fs.map fun f => RustType.changed (RustType.assocChange f.ty))
  | Fields.unit => GenItem.caseUnit v.ident

def enum_change_innards : List Variant → List GenItem
  | [] => []
  | v :: vs =>
      if variant_is_ignored v then enum_change_innards vs
      else change_innard_for v :: enum_change_innards vs

/-- lib.rs `process_enum`, `match_innards` of the describe body. -/
def match_innard_for (v : Variant) : DescArm :=
  match v.fields with
  | Fields.named fs => DescArm.named v.ident (fs.map fun f => f.ident)
  | Fields.unnamed fs => DescArm.unnamed v.ident fs.length
  | Fields.unit => DescArm.unit v.ident

def enum_match_innards : List Variant → List DescArm
  | [] => []
  | v :: vs =>
      if variant_is_ignored v then enum_match_innards vs
      else match_innard_for v :: enum_match_innards vs

/-- lib.rs `process_enum`, `delta_innards` before the fallback arm: the
per-variant comparison arm, carrying the variant's declaration index (the
source keys the arm on the variant's constructor, which is equivalent).
Field count again includes fields marked `delta_ignore`, as in the source. -/
def delta_arm_for (k : Nat) (v : Variant) : EnumArm :=
  match v.fields with
  | Fields.named fs => EnumArm.same k v.ident fs.length
  | Fields.unnamed fs => EnumArm.same k v.ident fs.length
  | Fields.unit => EnumArm.unitSame k v.ident

def delta_arms : Nat → List Variant → List EnumArm
  | _, [] => []
  | k, v :: vs =>
      if variant_is_ignored v then delta_arms (k + 1) vs
      else delta_arm_for k v :: delta_arms (k + 1) vs

/-- lib.rs `process_enum`.  The description attributes gathered by
`gather_attrs` are discarded here: the Desc type is the generated mirror enum
and the describe body the case-by-case match.  The mirror struct built by
`create_mirror_struct` is bound to an unused variable in the source and so
does not appear in the output. -/
def process_enum (attrs : Attributes) (variants : List Variant) : Generated :=
  { defs := [ definition attrs.visibility "enum" attrs.desc_name false
                (enum_desc_innards variants),
              definition attrs.visibility "enum" attrs.change_name false
                (enum_change_innards variants) ],
    isUnchangedVis := some attrs.visibility,
    impl := { typeName := attrs.type_name,
              descType := RustType.path attrs.desc_name,
              descBody := DescribeCode.enumMatch (enum_match_innards variants),
              changeType := RustType.enumChange RustType.selfDesc
                              (RustType.path attrs.change_name),
              changeBody := CompareCode.enumMatch
                              (delta_arms 0 variants ++ [EnumArm.fallback]) } }

/-- lib.rs `impl_delta`: gather the attributes (which may already panic on a
malformed payload), then dispatch on the data shape; unions panic. -/
def impl_delta (input : DeriveInput) : Except GenError Generated :=
  match gather_attrs input with
  | Except.error e => Except.error e
  | Except.ok attrs =>
      match input.data with
      | Data.struct fields => Except.ok (process_struct attrs fields)
      | Data.enum variants => Except.ok (process_enum attrs variants)
      | Data.union =>
          Except.error (GenError.unionsUnsupported msg_unions)

/-- True when the derive produced output (no panic). -/
def gen_succeeds (e : Except GenError Generated) : Bool :=
  match e with
  | Except.ok _ => true
  | Except.error _ => false

/-- True when the named attribute is present and its payload fails to parse. -/
def attr_malformed (attrs : List Attribute) (name : String) : Bool :=
  match has_attr attrs name with
  | some a => !a.payloadParses
  | none => false

/-- The visibility resolution of `gather_attrs`, as a standalone function of
the input (used to show that enum description output depends only on this,
the type name and the variant list). -/
def resolve_visibility (input : DeriveInput) : Visibility :=
  if (has_attr input.attrs "delta_private").isSome then Visibility.inherited
  else if (has_attr input.attrs "delta_public").isSome then Visibility.pub
  else input.vis

/-- Count of the fields of a record not flagged `delta_ignore` (a
specification-side reformulation used to state that the multi-field change
enum has exactly one case per non-ignored field). -/
def non_ignored_count : Fields → Nat
  | Fields.named fs =>
      (fs.filter fun f => (has_attr f.attrs "delta_ignore").isNone).length
  | Fields.unnamed fs =>
      (fs.filter fun f => (has_attr f.attrs "delta_ignore").isNone).length
  | Fields.unit => 0

/-! ## Runtime layer: semantics of the generated `delta` bodies. -/

/-- Modelled from the spec: the delta core crate's two-state comparison
container (`Changed`, `Changed::Unchanged` / `Changed::Changed`); the core
crate is not under src/. -/
inductive Changed (C : Type) where
  | Unchanged : Changed C
  | Changed : C → Changed C
deriving DecidableEq

/-- Alias for the container type, usable inside the `Changed` namespace where
the bare name would resolve to the constructor. -/
abbrev ChangedC (C : Type) : Type := Changed C

/-- Modelled from the spec: mapping the payload of a `Changed`. -/
def Changed.map {α β : Type} (c : ChangedC α) (f : α → β) : ChangedC β :=
  match c with
  | .Unchanged => .Unchanged
  | .Changed x => .Changed (f x)

/-- Modelled from the spec: `to_changes` discards `Unchanged` and yields the
payload as a singleton sequence (the generated multi-field body flattens
these). -/
def Changed.to_changes {α : Type} : ChangedC α → List α
  | .Unchanged => []
  | .Changed x => [x]

/-- Modelled from the spec: the `is_unchanged` predicate on `Changed`. -/
def Changed.is_unchanged {α : Type} : ChangedC α → Bool
  | .Unchanged => true
  | .Changed _ => false

/-- A runtime change value of a generated change representation: the
single-field wrapper, the `Vec` of per-field cases of a multi-field struct
(each tagged with its case identifier), or the two `delta::EnumChange`
alternatives (`SameVariant` carrying the per-field `Changed` values of the
change case, `DiffVariant` carrying the two descriptions). -/
inductive RunChange (C D : Type) where
  | wrapped (typeName : String) (c : C)
  | caseList (cs : List (String × C))
  | sameVariant (vname : String) (fields : List (Changed C))
  | diffVariant (selfDesc otherDesc : D)
deriving DecidableEq

/-- A runtime enum value: the declaration index of its variant and its field
values by position. -/
structure EnumVal (V : Type) where
  idx : Nat
  fieldAt : Nat → V

/-- Interpretation of the struct compare bodies.  `fdelta` gives the result
of `x.delta(&y)` at each pair of field values; struct values are field
assignments by declaration position.  Transcribes the three emitted bodies:
`delta::Changed::Unchanged`; `self.f.delta(&other.f).map(FooChange)`; and the
`vec![.. .map(FooChange::Case).to_changes() ..].into_iter().flatten()`
collection with its emptiness test. -/
def run_struct_compare {V C D : Type} (fdelta : V → V → Changed C) :
    CompareCode → (Nat → V) → (Nat → V) → Option (Changed (RunChange C D))
  | CompareCode.constUnchanged, _, _ => some Changed.Unchanged
  | CompareCode.singleMap fi cn, s, o =>
      some ((fdelta (s fi.idx) (o fi.idx)).map fun c => RunChange.wrapped cn c)
  | CompareCode.collect _ infos, s, o =>
      let changes := (infos.map fun fi =>
        ((fdelta (s fi.idx) (o fi.idx)).map fun c => (fi.pascal_case, c)).to_changes).flatten
      some (if changes.isEmpty then Changed.Unchanged
            else Changed.Changed (RunChange.caseList changes))
  | CompareCode.enumMatch _, _, _ => none

/-- The body of a matched same-variant arm: build the change value from the
per-field `delta` results; the generated `is_unchanged` for the case is the
conjunction of the fields' `is_unchanged` (lib.rs `is_unchanged_innards`),
and the arm yields `Unchanged` or `Changed(SameVariant(change))`
accordingly. -/
def same_arm_result {V C D : Type} (fdelta : V → V → Changed C) (vname : String)
    (arity : Nat) (s o : EnumVal V) : Changed (RunChange C D) :=
  let results := (List.range arity).map fun j => fdelta (s.fieldAt j) (o.fieldAt j)
  if (results.map Changed.is_unchanged).all (fun b => b) then Changed.Unchanged
  else Changed.Changed (RunChange.sameVariant vname results)

/-- Interpretation of the generated enum `delta` match: arms are tried in
order; a same-variant arm matches when both operands carry that variant's
constructor; the fallback arm matches every remaining pair and yields
`Changed(EnumChange::DiffVariant(self.describe(), other.describe()))`. -/
def run_enum_arms {V C D : Type} (fdelta : V → V → Changed C)
    (describe : EnumVal V → D) :
    List EnumArm → EnumVal V → EnumVal V → Option (Changed (RunChange C D))
  | [], _, _ => none
  | EnumArm.same k vname arity :: rest, s, o =>
      if s.idx = k ∧ o.idx = k then some (same_arm_result fdelta vname arity s o)
      else run_enum_arms fdelta describe rest s o
  | EnumArm.unitSame k _ :: rest, s, o =>
      if s.idx = k ∧ o.idx = k then some Changed.Unchanged
      else run_enum_arms fdelta describe rest s o
  | EnumArm.fallback :: _, s, o =>
      some (Changed.Changed (RunChange.diffVariant (describe s) (describe o)))

/-- Interpretation of a generated compare body against enum operands. -/
def run_enum_compare {V C D : Type} (fdelta : V → V → Changed C)
    (describe : EnumVal V → D) (code : CompareCode) (s o : EnumVal V) :
    Option (Changed (RunChange C D)) :=
  match code with
  | CompareCode.enumMatch arms => run_enum_arms fdelta describe arms s o
  | _ => none

/-- The number of fields a variant's generated comparison arm compares (all
declared fields of the variant; the source does not exclude fields flagged
`delta_ignore` here). -/
def variant_arity (v : Variant) : Nat :=
  match v.fields with
  | Fields.named fs => fs.length
  | Fields.unnamed fs => fs.length
  | Fields.unit => 0

/-- The result of the arm generated for a given variant when both operands
carry it. -/
def arm_result_for {V C D : Type} (fdelta : V → V → Changed C) (v : Variant)
    (s o : EnumVal V) : Changed (RunChange C D) :=
  match v.fields with
  | Fields.named fs => same_arm_result fdelta v.ident fs.length s o
  | Fields.unnamed fs => same_arm_result fdelta v.ident fs.length s o
  | Fields.unit => Changed.Unchanged

/-- Specification-side statement of the multi-field struct comparison: the
ordered sequence of exactly the changed fields' cases, `Unchanged` when that
sequence is empty. -/
def struct_multi_result {V C D : Type} (fdelta : V → V → Changed C)
    (infos : List FieldInfo) (s o : Nat → V) : Changed (RunChange C D) :=
  let cs := infos.filterMap fun fi =>
    match fdelta (s fi.idx) (o fi.idx) with
    | Changed.Unchanged => none
    | Changed.Changed c => some (fi.pascal_case, c)
  if cs.isEmpty then Changed.Unchanged else Changed.Changed (RunChange.caseList cs)

/-! ## Concrete inputs used by witnesses and counterexamples. -/

def attr_ignore : Attribute :=
  { path := "delta_ignore", payload := "", payloadParses := true }

def attr_no_description : Attribute :=
  { path := "no_description", payload := "", payloadParses := true }

def attr_private : Attribute :=
  { path := "delta_private", payload := "", payloadParses := true }

def attr_public : Attribute :=
  { path := "delta_public", payload := "", payloadParses := true }

def attr_compare_default : Attribute :=
  { path := "compare_default", payload := "", payloadParses := true }

def attr_describe_type_ok : Attribute :=
  { path := "describe_type", payload := "String", payloadParses := true }

def attr_describe_type_bad : Attribute :=
  { path := "describe_type", payload := "1 +", payloadParses := false }

/-- A resolved attribute record for runs that exercise only the compare
layer. -/
def base_attrs : Attributes :=
  { visibility := Visibility.pub, type_name := "Foo", desc_name := "FooDesc",
    desc_type := RustType.selfTy, desc_body := DescribeCode.cloneSelf,
    change_name := "FooChange" }

/-- A comparison on `Nat` field values: changed iff unequal, reporting the
right-hand value. -/
def nat_delta : Nat → Nat → Changed Nat :=
  fun a b => if a = b then Changed.Unchanged else Changed.Changed b

/-- A reflexive field comparison over `Bool` values (always unchanged). -/
def bool_delta_refl : Bool → Bool → Changed Nat :=
  fun _ _ => Changed.Unchanged

/-- A describe function returning a fixed description. -/
def describe_zero {V : Type} : EnumVal V → Nat := fun _ => 0

/-- A three-field named struct (witness for the multi-field record shape). -/
def w1_fields : Fields := Fields.named
  [ { ident := "first_field", attrs := [], ty := RustType.path "u32" },
    { ident := "second", attrs := [], ty := RustType.path "u32" },
    { ident := "third", attrs := [], ty := RustType.path "u32" } ]

def w1_self : Nat → Nat := fun _ => 0

def w1_other : Nat → Nat := fun i => if i = 1 then 0 else 1

/-- A two-variant enum: a unit case and a two-field named case. -/
def w2_variants : List Variant :=
  [ { ident := "Origin", attrs := [], fields := Fields.unit },
    { ident := "Point", attrs := [], fields := Fields.named
        [ { ident := "x", attrs := [], ty := RustType.path "i32" },
          { ident := "y", attrs := [], ty := RustType.path "i32" } ] } ]

def w2_self : EnumVal Nat := { idx := 1, fieldAt := fun _ => 0 }

def w2_other : EnumVal Nat := { idx := 1, fieldAt := fun i => if i = 1 then 5 else 0 }

def w3_self : EnumVal Nat := { idx := 0, fieldAt := fun _ => 0 }

/-- A `Bool`-valued enum value in the `Point` case of `w2_variants`. -/
def wb2_self : EnumVal Bool := { idx := 1, fieldAt := fun _ => false }

/-- An enum whose single variant has a field flagged `delta_ignore`
(failing input for the ignored-field claim). -/
def c4_variants : List Variant :=
  [ { ident := "V", attrs := [], fields := Fields.named
        [ { ident := "a", attrs := [], ty := RustType.path "i32" },
          { ident := "b", attrs := [attr_ignore], ty := RustType.path "i32" } ] } ]

def c4_self : EnumVal Nat := { idx := 0, fieldAt := fun _ => 0 }

/-- Differs from `c4_self` only at field position 1, the ignored field. -/
def c4_other : EnumVal Nat := { idx := 0, fieldAt := fun i => if i = 1 then 7 else 0 }

/-- An enum with a non-ignored unit case and an ignored unit case
(counterexample input for unconditional reflexivity). -/
def c6_variants : List Variant :=
  [ { ident := "A", attrs := [], fields := Fields.unit },
    { ident := "B", attrs := [attr_ignore], fields := Fields.unit } ]

/-- A value of the ignored case `B`. -/
def c6_val : EnumVal Bool := { idx := 1, fieldAt := fun _ => false }

/-- A struct input carrying both `no_description` and a `describe_type`
annotation whose payload does not parse: the parse is never attempted. -/
def c7_input : DeriveInput :=
  { ident := "Foo", vis := Visibility.pub,
    attrs := [attr_no_description, attr_describe_type_bad],
    data := Data.struct (Fields.named []) }

/-- A union input (generation must fail). -/
def c7_union_input : DeriveInput :=
  { ident := "U", vis := Visibility.inherited, attrs := [], data := Data.union }

/-- An input carrying both a parsing `describe_type` and `compare_default`. -/
def w5_input : DeriveInput :=
  { ident := "Foo", vis := Visibility.pub,
    attrs := [attr_describe_type_ok, attr_compare_default],
    data := Data.struct Fields.unit }

/-- The attributes `gather_attrs` resolves for `w5_input`. -/
def w5_attrs : Attributes :=
  { visibility := Visibility.pub, type_name := "Foo", desc_name := "FooDesc",
    desc_type := RustType.custom "String",
    desc_body := DescribeCode.defaultDelta "Foo", change_name := "FooChange" }

/-- A struct whose only field is ignored: zero non-ignored fields. -/
def w8_fields : Fields := Fields.named
  [ { ident := "hidden", attrs := [attr_ignore], ty := RustType.path "i32" } ]

def w9_variants : List Variant :=
  [ { ident := "Circle", attrs := [], fields := Fields.unit },
    { ident := "Rect", attrs := [], fields := Fields.named
        [ { ident := "w", attrs := [], ty := RustType.path "f32" },
          { ident := "h", attrs := [], ty := RustType.path "f32" } ] } ]

/-- An enum input that also carries description-strategy annotations, which
`process_enum` must ignore. -/
def w9_input : DeriveInput :=
  { ident := "Shape", vis := Visibility.pub,
    attrs := [attr_no_description, attr_compare_default],
    data := Data.enum w9_variants }

/-- The attributes `gather_attrs` resolves for `w9_input`. -/
def w9_attrs : Attributes :=
  { visibility := Visibility.pub, type_name := "Shape", desc_name := "ShapeDesc",
    desc_type := RustType.unit, desc_body := DescribeCode.unitVal,
    change_name := "ShapeChange" }

def w9_gen : Generated := process_enum w9_attrs w9_variants

def w10_fields : Fields := Fields.named
  [ { ident := "x", attrs := [], ty := RustType.path "i32" } ]

/-- A public struct carrying both `delta_private` and `delta_public`. -/
def w10_input : DeriveInput :=
  { ident := "Foo", vis := Visibility.pub, attrs := [attr_private, attr_public],
    data := Data.struct w10_fields }

/-- The attributes `gather_attrs` resolves for `w10_input`: visibility is
the private one. -/
def w10_attrs : Attributes :=
  { visibility := Visibility.inherited, type_name := "Foo", desc_name := "FooDesc",
    desc_type := RustType.selfTy, desc_body := DescribeCode.cloneSelf,
    change_name := "FooChange" }

def w10_gen : Generated := process_struct w10_attrs w10_fields

/-! ## Supporting lemmas. -/

theorem flatten_to_changes_eq_filterMap {V C : Type} (fdelta : V → V → Changed C)
    (s o : Nat → V) (infos : List FieldInfo) :
    (infos.map fun fi =>
      ((fdelta (s fi.idx) (o fi.idx)).map fun c => (fi.pascal_case, c)).to_changes).flatten =
    infos.filterMap fun fi =>
      match fdelta (s fi.idx) (o fi.idx) with
      | Changed.Unchanged => none
      | Changed.Changed c => some (fi.pascal_case, c) := by
  induction infos with
  | nil => rfl
  | cons fi rest ih =>
      simp only [List.map_cons, List.flatten_cons, List.filterMap_cons]
      cases h : fdelta (s fi.idx) (o fi.idx) with
      | Unchanged => simpa [Changed.map, Changed.to_changes] using ih
      | Changed c => simpa [Changed.map, Changed.to_changes] using ih

theorem run_struct_compare_collect {V C D : Type} (fdelta : V → V → Changed C)
    (cn : String) (infos : List FieldInfo) (s o : Nat → V) :
    run_struct_compare (D := D) fdelta (CompareCode.collect cn infos) s o =
      some (struct_multi_result fdelta infos s o) := by
  simp only [run_struct_compare, struct_multi_result,
    flatten_to_changes_eq_filterMap fdelta s o infos]

theorem struct_multi_result_unchanged_iff {V C D : Type} (fdelta : V → V → Changed C)
    (infos : List FieldInfo) (s o : Nat → V) :
    struct_multi_result (D := D) fdelta infos s o = Changed.Unchanged ↔
      ∀ fi ∈ infos, fdelta (s fi.idx) (o fi.idx) = Changed.Unchanged := by
  unfold struct_multi_result
  constructor
  · intro h fi hfi
    by_contra hne
    have hsome : (match fdelta (s fi.idx) (o fi.idx) with
        | Changed.Unchanged => none
        | Changed.Changed c => some (fi.pascal_case, c)).isSome = true := by
      cases hc : fdelta (s fi.idx) (o fi.idx) with
      | Unchanged => exact absurd hc hne
      | Changed c => rfl
    rcases Option.isSome_iff_exists.mp hsome with ⟨p, hp⟩
    have hmem : p ∈ infos.filterMap fun fi =>
        match fdelta (s fi.idx) (o fi.idx) with
        | Changed.Unchanged => none
        | Changed.Changed c => some (fi.pascal_case, c) :=
      List.mem_filterMap.mpr ⟨fi, hfi, hp⟩
    rcases hemp : infos.filterMap fun fi =>
        match fdelta (s fi.idx) (o fi.idx) with
        | Changed.Unchanged => none
        | Changed.Changed c => some (fi.pascal_case, c) with _ | ⟨q, qs⟩
    · rw [hemp] at hmem; exact absurd hmem (List.not_mem_nil p)
    · rw [hemp] at h; simp at h
  · intro h
    have hnil : (infos.filterMap fun fi =>
        match fdelta (s fi.idx) (o fi.idx) with
        | Changed.Unchanged => none
        | Changed.Changed c => some (fi.pascal_case, c)) = [] := by
      rw [List.filterMap_eq_nil_iff]
      intro fi hfi
      rw [h fi hfi]
    rw [hnil]
    rfl

theorem named_field_infos_length (fs : List NamedField) (i : Nat) :
    (named_field_infos fs i).length =
      (fs.filter fun f => (has_attr f.attrs "delta_ignore").isNone).length := by
  induction fs generalizing i with
  | nil => rfl
  | cons f rest ih =>
      cases h : (has_attr f.attrs "delta_ignore") with
      | none => simp [named_field_infos, List.filter_cons, h, ih]
      | some a => simp [named_field_infos, List.filter_cons, h, ih]

theorem unnamed_field_infos_length (fs : List UnnamedField) (i : Nat) :
    (unnamed_field_infos fs i).length =
      (fs.filter fun f => (has_attr f.attrs "delta_ignore").isNone).length := by
  induction fs generalizing i with
  | nil => rfl
  | cons f rest ih =>
      cases h : (has_attr f.attrs "delta_ignore") with
      | none => simp [unnamed_field_infos, List.filter_cons, h, ih]
      | some a => simp [unnamed_field_infos, List.filter_cons, h, ih]

theorem field_names_and_types_length (st : Fields) :
    (field_names_and_types st).length = non_ignored_count st := by
  cases st with
  | named fs => exact named_field_infos_length fs 0
  | unnamed fs => exact unnamed_field_infos_length fs 0
  | unit => rfl

/-! ## Claims. -/

/-- C8: for a record type with zero non-ignored fields, the generated
`Change` type is the unit type and `compare` returns `Unchanged` for every
pair of instances. -/
theorem empty_struct_compare {V C D : Type} (attrs : Attributes) (st : Fields)
    (h : field_names_and_types st = []) (fdelta : V → V → Changed C)
    (s o : Nat → V) :
    (process_struct attrs st).impl.changeType = RustType.unit
    ∧ (process_struct attrs st).defs = []
    ∧ run_struct_compare (D := D) fdelta (process_struct attrs st).impl.changeBody s o =
        some Changed.Unchanged := by
  simp [process_struct, h, run_struct_compare]

/-- Witness for C8: a struct whose only field carries `delta_ignore` has no
comparable field; any two instances compare `Unchanged`. -/
theorem empty_struct_compare_witness :
    field_names_and_types w8_fields = []
    ∧ run_struct_compare (D := Nat) nat_delta
        (process_struct base_attrs w8_fields).impl.changeBody (fun _ => 0) (fun _ => 9) =
        some Changed.Unchanged :=
  ⟨by decide,
   (empty_struct_compare base_attrs w8_fields (by decide) nat_delta
      (fun _ => 0) (fun _ => 9)).2.2⟩

/-- C1: for a record type with at least two non-ignored fields, the generated
`Change` type is an enum with exactly one case per non-ignored field (named
after the field in Pascal case, or `Field<index>` for positional fields),
each wrapping that field's associated `Change` type; `compare` collects, in
field-declaration order, exactly the cases of the fields whose comparison
changed, yielding `Unchanged` precisely when no field changed and
`Changed` of the ordered sequence otherwise. -/
theorem multi_field_struct_generation {V C D : Type} (attrs : Attributes)
    (st : Fields) (h2 : 2 ≤ (field_names_and_types st).length)
    (fdelta : V → V → Changed C) (s o : Nat → V) :
    (process_struct attrs st).defs =
      [definition attrs.visibility "enum" attrs.change_name false
        ((field_names_and_types st).map fun fi =>
          GenItem.caseUnnamed fi.pascal_case [RustType.assocChange fi.ty])]
    ∧ (field_names_and_types st).length = non_ignored_count st
    ∧ (process_struct attrs st).impl.changeType =
        RustType.vec (RustType.path attrs.change_name)
    ∧ run_struct_compare (D := D) fdelta (process_struct attrs st).impl.changeBody s o =
        some (struct_multi_result fdelta (field_names_and_types st) s o)
    ∧ (struct_multi_result (D := D) fdelta (field_names_and_types st) s o =
          Changed.Unchanged ↔
        ∀ fi ∈ field_names_and_types st,
          fdelta (s fi.idx) (o fi.idx) = Changed.Unchanged) := by
  rcases heq : field_names_and_types st with _ | ⟨a, _ | ⟨b, t⟩⟩
  · rw [heq] at h2; exact absurd h2 (by simp)
  · rw [heq] at h2; exact absurd h2 (by simp)
  · refine ⟨?_, by rw [← heq]; exact field_names_and_types_length st, ?_, ?_, ?_⟩
    · simp [process_struct, heq, define_enum_from_fields, heq]
    · simp [process_struct, heq]
    · simp only [process_struct, heq]
      exact run_struct_compare_collect fdelta attrs.change_name (a :: b :: t) s o
    · exact struct_multi_result_unchanged_iff fdelta (a :: b :: t) s o

/-- Witness for C1: the spec's sequence-fidelity example — a three-field
record whose first and third fields changed yields exactly those two cases,
in declaration order, with the Pascal-cased / unchanged field absent. -/
theorem multi_field_struct_generation_witness :
    2 ≤ (field_names_and_types w1_fields).length
    ∧ run_struct_compare (D := Nat) nat_delta
        (process_struct base_attrs w1_fields).impl.changeBody w1_self w1_other =
        some (Changed.Changed (RunChange.caseList [("FirstField", 1), ("Third", 1)])) := by
  refine ⟨by decide, ?_⟩
  rw [(multi_field_struct_generation base_attrs w1_fields (by decide) nat_delta
        w1_self w1_other).2.2.2.1]
  decide

/-! ## Enum compare lemmas. -/

theorem is_unchanged_eq_true_iff {α : Type} (c : Changed α) :
    c.is_unchanged = true ↔ c = Changed.Unchanged := by
  cases c <;> simp [Changed.is_unchanged]

theorem same_arm_result_cases {V C D : Type} (fdelta : V → V → Changed C)
    (vname : String) (n : Nat) (s o : EnumVal V) :
    (same_arm_result (D := D) fdelta vname n s o = Changed.Unchanged ↔
      ∀ j < n, fdelta (s.fieldAt j) (o.fieldAt j) = Changed.Unchanged)
    ∧ (same_arm_result (D := D) fdelta vname n s o ≠ Changed.Unchanged →
        same_arm_result (D := D) fdelta vname n s o =
          Changed.Changed (RunChange.sameVariant vname
            ((List.range n).map fun j => fdelta (s.fieldAt j) (o.fieldAt j)))) := by
  have hall : ((((List.range n).map fun j => fdelta (s.fieldAt j) (o.fieldAt j)).map
      Changed.is_unchanged).all (fun b => b) = true ↔
      ∀ j < n, fdelta (s.fieldAt j) (o.fieldAt j) = Changed.Unchanged) := by
    simp only [List.all_eq_true, List.mem_map, List.mem_range]
    constructor
    · intro h j hj
      have := h ((fdelta (s.fieldAt j) (o.fieldAt j)).is_unchanged)
        ⟨fdelta (s.fieldAt j) (o.fieldAt j), ⟨j, hj, rfl⟩, rfl⟩
      exact (is_unchanged_eq_true_iff _).mp this
    · rintro h b ⟨c, ⟨j, hj, hc⟩, hb⟩
      subst hc; subst hb
      exact (is_unchanged_eq_true_iff _).mpr (h j hj)
  unfold same_arm_result
  by_cases hb : ((((List.range n).map fun j => fdelta (s.fieldAt j) (o.fieldAt j)).map
      Changed.is_unchanged).all (fun b => b)) = true
  · rw [if_pos hb]
    exact ⟨iff_of_true rfl (hall.mp hb), fun hne => absurd rfl hne⟩
  · rw [if_neg hb]
    refine ⟨⟨fun h => absurd h (by simp), fun h => absurd (hall.mpr h) hb⟩, fun _ => rfl⟩

theorem run_enum_arms_fallback_isSome {V C D : Type} (fdelta : V → V → Changed C)
    (describe : EnumVal V → D) (arms : List EnumArm) (s o : EnumVal V) :
    (run_enum_arms fdelta describe (arms ++ [EnumArm.fallback]) s o).isSome = true := by
  induction arms with
  | nil => rfl
  | cons a rest ih =>
      cases a with
      | same k vname arity =>
          simp only [List.cons_append, run_enum_arms]
          by_cases h : s.idx = k ∧ o.idx = k
          · rw [if_pos h]; rfl
          · rw [if_neg h]; exact ih
      | unitSame k vname =>
          simp only [List.cons_append, run_enum_arms]
          by_cases h : s.idx = k ∧ o.idx = k
          · rw [if_pos h]; rfl
          · rw [if_neg h]; exact ih
      | fallback => rfl

theorem run_enum_arms_delta_arms_ne {V C D : Type} (fdelta : V → V → Changed C)
    (describe : EnumVal V → D) (s o : EnumVal V) (hne : s.idx ≠ o.idx) :
    ∀ (vs : List Variant) (k : Nat),
      run_enum_arms fdelta describe (delta_arms k vs ++ [EnumArm.fallback]) s o =
        some (Changed.Changed (RunChange.diffVariant (describe s) (describe o))) := by
  intro vs
  induction vs with
  | nil => intro k; rfl
  | cons v rest ih =>
      intro k
      have hcond : ¬(s.idx = k ∧ o.idx = k) := by
        rintro ⟨h1, h2⟩; exact hne (h1.trans h2.symm)
      simp only [delta_arms]
      by_cases hig : variant_is_ignored v = true
      · rw [if_pos hig]; exact ih (k + 1)
      · rw [if_neg hig]
        cases hf : v.fields with
        | named fs =>
            simp only [delta_arm_for, hf, List.cons_append, run_enum_arms]
            rw [if_neg hcond]; exact ih (k + 1)
        | unnamed fs =>
            simp only [delta_arm_for, hf, List.cons_append, run_enum_arms]
            rw [if_neg hcond]; exact ih (k + 1)
        | unit =>
            simp only [delta_arm_for, hf, List.cons_append, run_enum_arms]
            rw [if_neg hcond]; exact ih (k + 1)

theorem run_enum_arms_delta_arms_all_ignored {V C D : Type} (fdelta : V → V → Changed C)
    (describe : EnumVal V → D) (s o : EnumVal V) (heq : s.idx = o.idx) :
    ∀ (vs : List Variant) (k : Nat),
      (∀ (i : Nat) (h : i < vs.length), k + i = s.idx →
        variant_is_ignored (vs.get ⟨i, h⟩) = true) →
      run_enum_arms fdelta describe (delta_arms k vs ++ [EnumArm.fallback]) s o =
        some (Changed.Changed (RunChange.diffVariant (describe s) (describe o))) := by
  intro vs
  induction vs with
  | nil => intro k _; rfl
  | cons v rest ih =>
      intro k hall
      simp only [delta_arms]
      by_cases hig : variant_is_ignored v = true
      · rw [if_pos hig]
        exact ih (k + 1) fun i h hk => hall (i + 1) (Nat.succ_lt_succ h) (by omega)
      · rw [if_neg hig]
        have hsk : s.idx ≠ k := by
          intro hk
          exact hig (hall 0 (Nat.succ_pos _) (by omega))
        have hcond : ¬(s.idx = k ∧ o.idx = k) := by
          rintro ⟨h1, _⟩; exact hsk h1
        cases hf : v.fields with
        | named fs =>
            simp only [delta_arm_for, hf, List.cons_append, run_enum_arms]
            rw [if_neg hcond]
            exact ih (k + 1) fun i h hk => hall (i + 1) (Nat.succ_lt_succ h) (by omega)
        | unnamed fs =>
            simp only [delta_arm_for, hf, List.cons_append, run_enum_arms]
            rw [if_neg hcond]
            exact ih (k + 1) fun i h hk => hall (i + 1) (Nat.succ_lt_succ h) (by omega)
        | unit =>
            simp only [delta_arm_for, hf, List.cons_append, run_enum_arms]
            rw [if_neg hcond]
            exact ih (k + 1) fun i h hk => hall (i + 1) (Nat.succ_lt_succ h) (by omega)

theorem run_enum_arms_delta_arms_same {V C D : Type} (fdelta : V → V → Changed C)
    (describe : EnumVal V → D) (s o : EnumVal V) :
    ∀ (vs : List Variant) (k i : Nat) (h : i < vs.length) (rest : List EnumArm),
      s.idx = k + i → o.idx = k + i →
      variant_is_ignored (vs.get ⟨i, h⟩) = false →
      run_enum_arms fdelta describe (delta_arms k vs ++ rest) s o =
        some (arm_result_for fdelta (vs.get ⟨i, h⟩) s o) := by
  intro vs
  induction vs with
  | nil => intro k i h; exact absurd h (Nat.not_lt_zero i)
  | cons v rest0 ih =>
      intro k i h armrest hs ho hig
      cases i with
      | zero =>
          have hv : variant_is_ignored v = false := hig
          have hcond : s.idx = k ∧ o.idx = k := by omega
          simp only [delta_arms, hv, Bool.false_eq_true, if_false]
          cases hf : v.fields with
          | named fs =>
              simp only [delta_arm_for, hf, List.cons_append, run_enum_arms]
              rw [if_pos hcond]
              simp [arm_result_for, hf]
          | unnamed fs =>
              simp only [delta_arm_for, hf, List.cons_append, run_enum_arms]
              rw [if_pos hcond]
              simp [arm_result_for, hf]
          | unit =>
              simp only [delta_arm_for, hf, List.cons_append, run_enum_arms]
              rw [if_pos hcond]
              simp [arm_result_for, hf]
      | succ j =>
          have hj : j < rest0.length := Nat.lt_of_succ_lt_succ h
          simp only [delta_arms]
          by_cases hig0 : variant_is_ignored v = true
          · rw [if_pos hig0]
            exact ih (k + 1) j hj armrest (by omega) (by omega) hig
          · rw [if_neg hig0]
            have hcond : ¬(s.idx = k ∧ o.idx = k) := by
              rintro ⟨h1, _⟩; omega
            cases hf : v.fields with
            | named fs =>
                simp only [delta_arm_for, hf, List.cons_append, run_enum_arms]
                rw [if_neg hcond]
                exact ih (k + 1) j hj armrest (by omega) (by omega) hig
            | unnamed fs =>
                simp only [delta_arm_for, hf, List.cons_append, run_enum_arms]
                rw [if_neg hcond]
                exact ih (k + 1) j hj armrest (by omega) (by omega) hig
            | unit =>
                simp only [delta_arm_for, hf, List.cons_append, run_enum_arms]
                rw [if_neg hcond]
                exact ih (k + 1) j hj armrest (by omega) (by omega) hig

theorem run_enum_compare_process_enum {V C D : Type} (fdelta : V → V → Changed C)
    (describe : EnumVal V → D) (attrs : Attributes) (variants : List Variant)
    (s o : EnumVal V) :
    run_enum_compare fdelta describe (process_enum attrs variants).impl.changeBody s o =
      run_enum_arms fdelta describe (delta_arms 0 variants ++ [EnumArm.fallback]) s o := rfl

/-- C2: when both operands carry the same non-ignored case, the generated
compare yields `Unchanged` iff every per-field comparison of that case is
`Unchanged`, and otherwise `Changed(SameVariant(change))` where the change
assembles the per-field results into the case's change shape. -/
theorem enum_same_case_compare {V C D : Type} (fdelta : V → V → Changed C)
    (describe : EnumVal V → D) (attrs : Attributes) (variants : List Variant)
    (s o : EnumVal V) (h : s.idx < variants.length) (hoi : o.idx = s.idx)
    (hig : variant_is_ignored (variants.get ⟨s.idx, h⟩) = false) :
    run_enum_compare fdelta describe (process_enum attrs variants).impl.changeBody s o =
      some (arm_result_for fdelta (variants.get ⟨s.idx, h⟩) s o)
    ∧ (run_enum_compare fdelta describe (process_enum attrs variants).impl.changeBody s o =
        some Changed.Unchanged ↔
        ∀ j < variant_arity (variants.get ⟨s.idx, h⟩),
          fdelta (s.fieldAt j) (o.fieldAt j) = Changed.Unchanged)
    ∧ (run_enum_compare fdelta describe (process_enum attrs variants).impl.changeBody s o ≠
        some Changed.Unchanged →
        run_enum_compare fdelta describe (process_enum attrs variants).impl.changeBody s o =
          some (Changed.Changed (RunChange.sameVariant (variants.get ⟨s.idx, h⟩).ident
            ((List.range (variant_arity (variants.get ⟨s.idx, h⟩))).map fun j =>
              fdelta (s.fieldAt j) (o.fieldAt j))))) := by
  have hmain : run_enum_compare fdelta describe
      (process_enum attrs variants).impl.changeBody s o =
      some (arm_result_for fdelta (variants.get ⟨s.idx, h⟩) s o) := by
    rw [run_enum_compare_process_enum]
    exact run_enum_arms_delta_arms_same fdelta describe s o variants 0 s.idx h
      [EnumArm.fallback] (by omega) (by omega) hig
  refine ⟨hmain, ?_, ?_⟩
  · rw [hmain]
    cases hf : (variants.get ⟨s.idx, h⟩).fields with
    | named fs =>
        simp only [arm_result_for, hf, variant_arity, Option.some.injEq]
        exact (same_arm_result_cases fdelta _ fs.length s o).1
    | unnamed fs =>
        simp only [arm_result_for, hf, variant_arity, Option.some.injEq]
        exact (same_arm_result_cases fdelta _ fs.length s o).1
    | unit =>
        simp only [arm_result_for, hf, variant_arity]
        constructor
        · intro _ j hj; exact absurd hj (Nat.not_lt_zero j)
        · intro _; trivial
  · intro hne
    rw [hmain] at hne ⊢
    cases hf : (variants.get ⟨s.idx, h⟩).fields with
    | named fs =>
        simp only [arm_result_for, hf, variant_arity, Option.some.injEq] at hne ⊢
        exact (same_arm_result_cases fdelta _ fs.length s o).2 (by simpa using hne)
    | unnamed fs =>
        simp only [arm_result_for, hf, variant_arity, Option.some.injEq] at hne ⊢
        exact (same_arm_result_cases fdelta _ fs.length s o).2 (by simpa using hne)
    | unit =>
        simp only [arm_result_for, hf] at hne
        exact absurd rfl hne

/-- Witness for C2: the spec's same-case example — two `Point{x, y}` values
differing only in `y` yield `Changed(SameVariant(Point{x: Unchanged,
y: Changed(5)}))`. -/
theorem enum_same_case_compare_witness :
    w2_other.idx = w2_self.idx
    ∧ variant_is_ignored (w2_variants.get ⟨1, by decide⟩) = false
    ∧ run_enum_compare (D := Nat) nat_delta describe_zero
        (process_enum base_attrs w2_variants).impl.changeBody w2_self w2_other =
        some (Changed.Changed (RunChange.sameVariant "Point"
          [Changed.Unchanged, Changed.Changed 5])) := by
  refine ⟨by decide, by decide, ?_⟩
  rw [(enum_same_case_compare nat_delta describe_zero base_attrs w2_variants
        w2_self w2_other (by decide) (by decide) (by decide)).1]
  decide

/-- C3: whenever the operands carry different cases — including whenever the
operands share a case flagged `delta_ignore`, for which no same-case arm is
generated — the result is `Changed(DiffVariant(self.describe(),
other.describe()))`, and the generated match is total over every pair of
operands. -/
theorem enum_cross_case_compare {V C D : Type} (fdelta : V → V → Changed C)
    (describe : EnumVal V → D) (attrs : Attributes) (variants : List Variant)
    (s o : EnumVal V)
    (hcase : s.idx ≠ o.idx ∨ (s.idx = o.idx ∧ ∀ (h : s.idx < variants.length),
      variant_is_ignored (variants.get ⟨s.idx, h⟩) = true)) :
    run_enum_compare fdelta describe (process_enum attrs variants).impl.changeBody s o =
      some (Changed.Changed (RunChange.diffVariant (describe s) (describe o)))
    ∧ ∀ (s2 o2 : EnumVal V),
        (run_enum_compare fdelta describe
          (process_enum attrs variants).impl.changeBody s2 o2).isSome = true := by
  constructor
  · rw [run_enum_compare_process_enum]
    rcases hcase with hne | ⟨heq, hall⟩
    · exact run_enum_arms_delta_arms_ne fdelta describe s o hne variants 0
    · refine run_enum_arms_delta_arms_all_ignored fdelta describe s o heq variants 0 ?_
      intro i h hk
      have hi : i = s.idx := by omega
      subst hi
      exact hall h
  · intro s2 o2
    rw [run_enum_compare_process_enum]
    exact run_enum_arms_fallback_isSome fdelta describe _ s2 o2

/-- Witness for C3: an `Origin` value against a `Point` value yields
`Changed(DiffVariant(describe(Origin-value), describe(Point-value)))`. -/
theorem enum_cross_case_compare_witness :
    w3_self.idx ≠ w2_self.idx
    ∧ run_enum_compare (D := Nat) nat_delta describe_zero
        (process_enum base_attrs w2_variants).impl.changeBody w3_self w2_self =
        some (Changed.Changed (RunChange.diffVariant 0 0)) := by
  refine ⟨by decide, ?_⟩
  rw [(enum_cross_case_compare nat_delta describe_zero base_attrs w2_variants
        w3_self w2_self (Or.inl (by decide))).1]
  decide

theorem same_arm_result_refl {V C D : Type} (fdelta : V → V → Changed C)
    (href : ∀ v, fdelta v v = Changed.Unchanged) (vname : String) (n : Nat)
    (s : EnumVal V) : same_arm_result (D := D) fdelta vname n s s = Changed.Unchanged :=
  (same_arm_result_cases fdelta vname n s s).1.mpr fun j _ => href (s.fieldAt j)

/-- C6 (amended): with every field comparison reflexive, `v.compare(v)` is
`Unchanged` for every generation shape — zero-, one- and multi-field records
and unit, record-shaped and positional variant cases — provided, for variant
values, that the value's case is not flagged `delta_ignore` (a value of an
ignored case falls through to the `DiffVariant` fallback arm). -/
theorem compare_reflexive {V C D : Type} (fdelta : V → V → Changed C)
    (describe : EnumVal V → D) (href : ∀ v, fdelta v v = Changed.Unchanged) :
    (∀ (attrs : Attributes) (st : Fields) (s : Nat → V),
        run_struct_compare (D := D) fdelta (process_struct attrs st).impl.changeBody s s =
          some Changed.Unchanged)
    ∧ (∀ (attrs : Attributes) (variants : List Variant) (s : EnumVal V)
        (h : s.idx < variants.length),
        variant_is_ignored (variants.get ⟨s.idx, h⟩) = false →
        run_enum_compare fdelta describe (process_enum attrs variants).impl.changeBody s s =
          some Changed.Unchanged) := by
  constructor
  · intro attrs st s
    rcases heq : field_names_and_types st with _ | ⟨fi, _ | ⟨b, t⟩⟩
    · simp [process_struct, heq, run_struct_compare]
    · simp [process_struct, heq, run_struct_compare, href, Changed.map]
    · simp only [process_struct, heq]
      rw [run_struct_compare_collect]
      have hu := (struct_multi_result_unchanged_iff (D := D) fdelta (fi :: b :: t) s s).mpr
        fun x _ => href (s x.idx)
      rw [hu]
  · intro attrs variants s h hig
    rw [run_enum_compare_process_enum]
    rw [run_enum_arms_delta_arms_same fdelta describe s s variants 0 s.idx h
      [EnumArm.fallback] (by omega) (by omega) hig]
    generalize variants.get ⟨s.idx, h⟩ = v
    cases hf : v.fields with
    | named fs => simp [arm_result_for, hf, same_arm_result_refl fdelta href]
    | unnamed fs => simp [arm_result_for, hf, same_arm_result_refl fdelta href]
    | unit => simp [arm_result_for, hf]

/-- Witness for C6: a reflexive field comparison gives `Unchanged` on a
three-field record and on a record-shaped variant case compared against
itself. -/
theorem compare_reflexive_witness :
    (∀ v : Bool, bool_delta_refl v v = Changed.Unchanged)
    ∧ run_struct_compare (D := Nat) bool_delta_refl
        (process_struct base_attrs w1_fields).impl.changeBody
        (fun _ => false) (fun _ => false) = some Changed.Unchanged
    ∧ run_enum_compare (D := Nat) bool_delta_refl describe_zero
        (process_enum base_attrs w2_variants).impl.changeBody wb2_self wb2_self =
        some Changed.Unchanged := by
  refine ⟨fun v => rfl, ?_, ?_⟩
  · exact (compare_reflexive bool_delta_refl describe_zero fun v => rfl).1
      base_attrs w1_fields (fun _ => false)
  · exact (compare_reflexive bool_delta_refl describe_zero fun v => rfl).2
      base_attrs w2_variants wb2_self (by decide) (by decide)

/-- Counterexample for C6 as stated: in an enum with an ignored case, a value
of the ignored case compared against itself yields `Changed(DiffVariant(..))`
even though the field comparison is reflexive, so `v.compare(v)` is not
`Unchanged` for all values of types generated by these shapes. -/
theorem compare_reflexive_cex :
    (∀ v : Bool, bool_delta_refl v v = Changed.Unchanged)
    ∧ run_enum_compare (D := Nat) bool_delta_refl describe_zero
        (process_enum base_attrs c6_variants).impl.changeBody c6_val c6_val =
        some (Changed.Changed (RunChange.diffVariant 0 0))
    ∧ run_enum_compare (D := Nat) bool_delta_refl describe_zero
        (process_enum base_attrs c6_variants).impl.changeBody c6_val c6_val ≠
        some Changed.Unchanged :=
  ⟨fun v => rfl, by decide, by decide⟩

/-- C4 (code evaluated at the failing input): inside an enum variant, a field
flagged `delta_ignore` still appears in the generated `Desc` and `Change`
cases and still participates in comparison — two values of the same variant
that differ only in the ignored field compare as `Changed`, not `Unchanged`.
The source's own comment (lib.rs:227) records the missing per-field check. -/
theorem variant_field_ignore_bug :
    enum_change_innards c4_variants =
      [GenItem.caseNamed "V"
        [("a", RustType.changed (RustType.assocChange (RustType.path "i32"))),
         ("b", RustType.changed (RustType.assocChange (RustType.path "i32")))]]
    ∧ enum_desc_innards c4_variants =
      [GenItem.caseNamed "V"
        [("a", RustType.assocDesc (RustType.path "i32")),
         ("b", RustType.assocDesc (RustType.path "i32"))]]
    ∧ c4_self.idx = c4_other.idx
    ∧ c4_self.fieldAt 0 = c4_other.fieldAt 0
    ∧ c4_self.fieldAt 1 ≠ c4_other.fieldAt 1
    ∧ run_enum_compare (D := Nat) nat_delta describe_zero
        (process_enum base_attrs c4_variants).impl.changeBody c4_self c4_other =
        some (Changed.Changed (RunChange.sameVariant "V"
          [Changed.Unchanged, Changed.Changed 7])) := by
  refine ⟨by decide, by decide, by decide, by decide, by decide, by decide⟩

/-! ## Attribute-resolution lemmas. -/

theorem gather_attrs_ok_fields (input : DeriveInput) (a : Attributes)
    (hok : gather_attrs input = Except.ok a) :
    a.visibility = resolve_visibility input ∧ a.type_name = input.ident
    ∧ a.desc_name = input.ident ++ "Desc"
    ∧ a.change_name = input.ident ++ "Change" := by
  simp only [gather_attrs] at hok
  split at hok
  · exact absurd hok (by simp)
  · split at hok
    · exact absurd hok (by simp)
    · injection hok with hok
      subst hok
      exact ⟨rfl, rfl, rfl, rfl⟩

theorem gather_attrs_spec (input : DeriveInput) (a : Attributes)
    (hok : gather_attrs input = Except.ok a) :
    a.desc_type = (if (has_attr input.attrs "no_description").isSome then RustType.unit
      else match has_attr input.attrs "describe_type" with
        | some a1 => RustType.custom a1.payload
        | none => if (has_attr input.attrs "compare_default").isSome then
            RustType.selfChange else RustType.selfTy)
    ∧ a.desc_body = (if (has_attr input.attrs "no_description").isSome then
        DescribeCode.unitVal
      else match has_attr input.attrs "describe_body" with
        | some a2 => DescribeCode.custom a2.payload
        | none => if (has_attr input.attrs "compare_default").isSome then
            DescribeCode.defaultDelta input.ident else DescribeCode.cloneSelf) := by
  rcases hnd : has_attr input.attrs "no_description" with _ | a0
  · cases hcd : (has_attr input.attrs "compare_default").isSome
    · rcases hdt : has_attr input.attrs "describe_type" with _ | a1
      · rcases hdb : has_attr input.attrs "describe_body" with _ | a2
        · simp only [gather_attrs, hnd, hdt, hdb, hcd, Option.isSome_none,
            Bool.false_eq_true, if_false] at hok
          injection hok with hok
          subst hok
          simp [hnd, hdt, hdb, hcd]
        · cases hp2 : a2.payloadParses
          · simp [gather_attrs, hnd, hdt, hdb, hcd, hp2] at hok
          · simp only [gather_attrs, hnd, hdt, hdb, hcd, hp2, Option.isSome_none,
              Bool.false_eq_true, if_false, if_true] at hok
            injection hok with hok
            subst hok
            simp [hnd, hdt, hdb, hcd]
      · cases hp : a1.payloadParses
        · simp [gather_attrs, hnd, hdt, hcd, hp] at hok
        · rcases hdb : has_attr input.attrs "describe_body" with _ | a2
          · simp only [gather_attrs, hnd, hdt, hdb, hcd, hp, Option.isSome_none,
              Bool.false_eq_true, if_false, if_true] at hok
            injection hok with hok
            subst hok
            simp [hnd, hdt, hdb, hcd]
          · cases hp2 : a2.payloadParses
            · simp [gather_attrs, hnd, hdt, hdb, hcd, hp, hp2] at hok
            · simp only [gather_attrs, hnd, hdt, hdb, hcd, hp, hp2, Option.isSome_none,
                Bool.false_eq_true, if_false, if_true] at hok
              injection hok with hok
              subst hok
              simp [hnd, hdt, hdb, hcd]
    · rcases hdt : has_attr input.attrs "describe_type" with _ | a1
      · rcases hdb : has_attr input.attrs "describe_body" with _ | a2
        · simp only [gather_attrs, hnd, hdt, hdb, hcd, Option.isSome_none,
            Bool.false_eq_true, if_false, if_true] at hok
          injection hok with hok
          subst hok
          simp [hnd, hdt, hdb, hcd]
        · cases hp2 : a2.payloadParses
          · simp [gather_attrs, hnd, hdt, hdb, hcd, hp2] at hok
          · simp only [gather_attrs, hnd, hdt, hdb, hcd, hp2, Option.isSome_none,
              Bool.false_eq_true, if_false, if_true] at hok
            injection hok with hok
            subst hok
            simp [hnd, hdt, hdb, hcd]
      · cases hp : a1.payloadParses
        · simp [gather_attrs, hnd, hdt, hcd, hp] at hok
        · rcases hdb : has_attr input.attrs "describe_body" with _ | a2
          · simp only [gather_attrs, hnd, hdt, hdb, hcd, hp, Option.isSome_none,
              Bool.false_eq_true, if_false, if_true] at hok
            injection hok with hok
            subst hok
            simp [hnd, hdt, hdb, hcd]
          · cases hp2 : a2.payloadParses
            · simp [gather_attrs, hnd, hdt, hdb, hcd, hp, hp2] at hok
            · simp only [gather_attrs, hnd, hdt, hdb, hcd, hp, hp2, Option.isSome_none,
                Bool.false_eq_true, if_false, if_true] at hok
              injection hok with hok
              subst hok
              simp [hnd, hdt, hdb, hcd]
  · simp only [gather_attrs, hnd, Option.isSome_some, if_true] at hok
    injection hok with hok
    subst hok
    simp [hnd]

set_option maxRecDepth 4096 in
theorem gather_attrs_error_iff (input : DeriveInput) (e : GenError) :
    gather_attrs input = Except.error e ↔
      (has_attr input.attrs "no_description" = none ∧
        ((attr_malformed input.attrs "describe_type" = true ∧
            e = GenError.parseFailure "describe_type" msg_describe_type)
         ∨ (attr_malformed input.attrs "describe_type" = false ∧
            attr_malformed input.attrs "describe_body" = true ∧
            e = GenError.parseFailure "describe_body" msg_describe_body))) := by
  rcases hnd : has_attr input.attrs "no_description" with _ | a0
  · cases hcd : (has_attr input.attrs "compare_default").isSome
    · rcases hdt : has_attr input.attrs "describe_type" with _ | a1
      · rcases hdb : has_attr input.attrs "describe_body" with _ | a2
        · simp [gather_attrs, attr_malformed, hnd, hdt, hdb, hcd]
        · cases hp2 : a2.payloadParses
          · simp [gather_attrs, attr_malformed, hnd, hdt, hdb, hcd, hp2, eq_comm]
          · simp [gather_attrs, attr_malformed, hnd, hdt, hdb, hcd, hp2]
      · cases hp : a1.payloadParses
        · have hg : gather_attrs input =
              Except.error (GenError.parseFailure "describe_type" msg_describe_type) := by
            simp [gather_attrs, hnd, hdt, hcd, hp]
          have hmt : attr_malformed input.attrs "describe_type" = true := by
            simp [attr_malformed, hdt, hp]
          rw [hg]
          constructor
          · intro h
            injection h with h
            exact ⟨rfl, Or.inl ⟨hmt, h.symm⟩⟩
          · rintro ⟨_, ⟨_, hE⟩ | ⟨hmf, _, _⟩⟩
            · rw [hE]
            · rw [hmt] at hmf; exact absurd hmf (by simp)
        · rcases hdb : has_attr input.attrs "describe_body" with _ | a2
          · simp [gather_attrs, attr_malformed, hnd, hdt, hdb, hcd, hp]
          · cases hp2 : a2.payloadParses
            · simp [gather_attrs, attr_malformed, hnd, hdt, hdb, hcd, hp, hp2, eq_comm]
            · simp [gather_attrs, attr_malformed, hnd, hdt, hdb, hcd, hp, hp2]
    · rcases hdt : has_attr input.attrs "describe_type" with _ | a1
      · rcases hdb : has_attr input.attrs "describe_body" with _ | a2
        · simp [gather_attrs, attr_malformed, hnd, hdt, hdb, hcd]
        · cases hp2 : a2.payloadParses
          · simp [gather_attrs, attr_malformed, hnd, hdt, hdb, hcd, hp2, eq_comm]
          · simp [gather_attrs, attr_malformed, hnd, hdt, hdb, hcd, hp2]
      · cases hp : a1.payloadParses
        · have hg : gather_attrs input =
              Except.error (GenError.parseFailure "describe_type" msg_describe_type) := by
            simp [gather_attrs, hnd, hdt, hcd, hp]
          have hmt : attr_malformed input.attrs "describe_type" = true := by
            simp [attr_malformed, hdt, hp]
          rw [hg]
          constructor
          · intro h
            injection h with h
            exact ⟨rfl, Or.inl ⟨hmt, h.symm⟩⟩
          · rintro ⟨_, ⟨_, hE⟩ | ⟨hmf, _, _⟩⟩
            · rw [hE]
            · rw [hmt] at hmf; exact absurd hmf (by simp)
        · rcases hdb : has_attr input.attrs "describe_body" with _ | a2
          · simp [gather_attrs, attr_malformed, hnd, hdt, hdb, hcd, hp]
          · cases hp2 : a2.payloadParses
            · simp [gather_attrs, attr_malformed, hnd, hdt, hdb, hcd, hp, hp2, eq_comm]
            · simp [gather_attrs, attr_malformed, hnd, hdt, hdb, hcd, hp, hp2]
  · simp [gather_attrs, attr_malformed, hnd]

theorem gather_attrs_ok_no_malformed (input : DeriveInput) (a : Attributes)
    (hok : gather_attrs input = Except.ok a)
    (hnd : has_attr input.attrs "no_description" = none) :
    attr_malformed input.attrs "describe_type" = false ∧
    attr_malformed input.attrs "describe_body" = false := by
  cases hdt : attr_malformed input.attrs "describe_type"
  · cases hdb : attr_malformed input.attrs "describe_body"
    · exact ⟨rfl, rfl⟩
    · have herr := (gather_attrs_error_iff input
        (GenError.parseFailure "describe_body" msg_describe_body)).mpr
        ⟨hnd, Or.inr ⟨hdt, hdb, rfl⟩⟩
      rw [herr] at hok
      exact absurd hok (by simp)
  · have herr := (gather_attrs_error_iff input
      (GenError.parseFailure "describe_type" msg_describe_type)).mpr
      ⟨hnd, Or.inl ⟨hdt, rfl⟩⟩
    rw [herr] at hok
    exact absurd hok (by simp)

/-- C5: the describe type and describe body are each resolved by the first
matching rule, in priority order: `no_description` (unit), then the custom
`describe_type` / `describe_body` annotation, then `compare_default`
(description as diff against the default value), then the plain clone of the
value. -/
theorem describe_strategy_priority (input : DeriveInput) (a : Attributes)
    (hok : gather_attrs input = Except.ok a) :
    ((has_attr input.attrs "no_description").isSome = true →
      a.desc_type = RustType.unit ∧ a.desc_body = DescribeCode.unitVal)
    ∧ (has_attr input.attrs "no_description" = none →
      ∀ a1, has_attr input.attrs "describe_type" = some a1 →
        a.desc_type = RustType.custom a1.payload)
    ∧ (has_attr input.attrs "no_description" = none →
      has_attr input.attrs "describe_type" = none →
      (has_attr input.attrs "compare_default").isSome = true →
      a.desc_type = RustType.selfChange)
    ∧ (has_attr input.attrs "no_description" = none →
      has_attr input.attrs "describe_type" = none →
      has_attr input.attrs "compare_default" = none →
      a.desc_type = RustType.selfTy)
    ∧ (has_attr input.attrs "no_description" = none →
      ∀ a2, has_attr input.attrs "describe_body" = some a2 →
        a.desc_body = DescribeCode.custom a2.payload)
    ∧ (has_attr input.attrs "no_description" = none →
      has_attr input.attrs "describe_body" = none →
      (has_attr input.attrs "compare_default").isSome = true →
      a.desc_body = DescribeCode.defaultDelta input.ident)
    ∧ (has_attr input.attrs "no_description" = none →
      has_attr input.attrs "describe_body" = none →
      has_attr input.attrs "compare_default" = none →
      a.desc_body = DescribeCode.cloneSelf) := by
  obtain ⟨hdtspec, hdbspec⟩ := gather_attrs_spec input a hok
  refine ⟨?_, ?_, ?_, ?_, ?_, ?_, ?_⟩
  · intro hnd
    rw [hdtspec, hdbspec, if_pos hnd, if_pos hnd]
    exact ⟨rfl, rfl⟩
  · intro hnd a1 hdt
    rw [hdtspec, hnd, hdt]
    rfl
  · intro hnd hdt hcd
    rw [hdtspec, hnd, hdt]
    simp [hcd]
  · intro hnd hdt hcd
    rw [hdtspec, hnd, hdt]
    simp [hcd]
  · intro hnd a2 hdb
    rw [hdbspec, hnd, hdb]
    rfl
  · intro hnd hdb hcd
    rw [hdbspec, hnd, hdb]
    simp [hcd]
  · intro hnd hdb hcd
    rw [hdbspec, hnd, hdb]
    simp [hcd]

/-- Witness for C5: with both a parsing `describe_type` and `compare_default`
present, the describe type is the custom one (custom beats
default-reconstruction) while the describe body, lacking a `describe_body`
annotation, is the default-value diff. -/
theorem describe_strategy_priority_witness :
    gather_attrs w5_input = Except.ok w5_attrs
    ∧ w5_attrs.desc_type = RustType.custom "String"
    ∧ w5_attrs.desc_body = DescribeCode.defaultDelta "Foo" := by
  refine ⟨rfl, ?_, ?_⟩
  · exact (describe_strategy_priority w5_input w5_attrs rfl).2.1
      (by decide) attr_describe_type_ok (by decide)
  · exact (describe_strategy_priority w5_input w5_attrs rfl).2.2.2.2.2.1
      (by decide) (by decide) (by decide)

/-- Counterexample for C7 as stated: an input whose `describe_type` payload
does not parse, but which also carries `no_description` — the parse is never
attempted (the `no_description` branch short-circuits it) and generation
succeeds, so the malformed-annotation situation does not always fail. -/
theorem generation_failure_cex :
    attr_malformed c7_input.attrs "describe_type" = true
    ∧ (has_attr c7_input.attrs "describe_type").isSome = true
    ∧ gen_succeeds (impl_delta c7_input) = true := by
  refine ⟨by decide, by decide, by decide⟩

/-- C7 (amended): generation fails fatally — producing an error value and no
output at all — exactly when the input is a union, or when a `describe_type`
or `describe_body` payload fails to parse while `no_description` is absent
(`no_description` short-circuits both parses); every error identifies the
offending annotation or the unsupported union shape. -/
theorem generation_failure_characterization (input : DeriveInput) :
    (gen_succeeds (impl_delta input) = false ↔
      ((has_attr input.attrs "no_description" = none ∧
        (attr_malformed input.attrs "describe_type" = true ∨
         attr_malformed input.attrs "describe_body" = true))
      ∨ input.data = Data.union))
    ∧ (∀ e, impl_delta input = Except.error e →
        (e = GenError.parseFailure "describe_type" msg_describe_type
          ∧ attr_malformed input.attrs "describe_type" = true)
        ∨ (e = GenError.parseFailure "describe_body" msg_describe_body
          ∧ attr_malformed input.attrs "describe_body" = true)
        ∨ (e = GenError.unionsUnsupported msg_unions ∧ input.data = Data.union)) := by
  cases hga : gather_attrs input with
  | error e0 =>
      obtain ⟨hnd, hcases⟩ := (gather_attrs_error_iff input e0).mp hga
      have himpl : impl_delta input = Except.error e0 := by
        simp [impl_delta, hga]
      constructor
      · rw [himpl]
        refine iff_of_true rfl (Or.inl ⟨hnd, ?_⟩)
        rcases hcases with ⟨hm, _⟩ | ⟨_, hm, _⟩
        · exact Or.inl hm
        · exact Or.inr hm
      · intro e he
        rw [himpl] at he
        injection he with he
        subst he
        rcases hcases with ⟨hm, hE⟩ | ⟨_, hm, hE⟩
        · exact Or.inl ⟨hE, hm⟩
        · exact Or.inr (Or.inl ⟨hE, hm⟩)
  | ok attrs =>
      cases hdata : input.data with
      | struct fields =>
          have himpl : impl_delta input = Except.ok (process_struct attrs fields) := by
            simp [impl_delta, hga, hdata]
          constructor
          · rw [himpl]
            refine iff_of_false (by simp [gen_succeeds]) ?_
            rintro (⟨hnd, hm⟩ | hu)
            · rcases gather_attrs_ok_no_malformed input attrs hga hnd with ⟨h1, h2⟩
              rcases hm with hm | hm
              · rw [h1] at hm; exact absurd hm (by simp)
              · rw [h2] at hm; exact absurd hm (by simp)
            · exact absurd hu (by simp)
          · intro e he
            rw [himpl] at he
            exact absurd he (by simp)
      | enum variants =>
          have himpl : impl_delta input = Except.ok (process_enum attrs variants) := by
            simp [impl_delta, hga, hdata]
          constructor
          · rw [himpl]
            refine iff_of_false (by simp [gen_succeeds]) ?_
            rintro (⟨hnd, hm⟩ | hu)
            · rcases gather_attrs_ok_no_malformed input attrs hga hnd with ⟨h1, h2⟩
              rcases hm with hm | hm
              · rw [h1] at hm; exact absurd hm (by simp)
              · rw [h2] at hm; exact absurd hm (by simp)
            · exact absurd hu (by simp)
          · intro e he
            rw [himpl] at he
            exact absurd he (by simp)
      | union =>
          have himpl : impl_delta input =
              Except.error (GenError.unionsUnsupported msg_unions) := by
            simp [impl_delta, hga, hdata]
          constructor
          · rw [himpl]
            exact iff_of_true rfl (Or.inr rfl)
          · intro e he
            rw [himpl] at he
            injection he with he
            subst he
            exact Or.inr (Or.inr ⟨rfl, rfl⟩)

/-- Witness for C7: a union input fails generation. -/
theorem generation_failure_characterization_witness :
    gen_succeeds (impl_delta c7_union_input) = false
    ∧ c7_union_input.data = Data.union :=
  ⟨(generation_failure_characterization c7_union_input).1.mpr (Or.inr rfl), rfl⟩

/-- C9: for an enum input, the description-strategy annotations have no
effect on the generated description: whenever generation succeeds, the Desc
type is the mirror enum named `<Type>Desc` (one case per non-ignored source
case, each field type replaced by its `Desc` type), and the describe body is
the case-by-case match through that mirror — both determined by the type
name, resolved visibility and variant list alone. -/
theorem enum_description_mirror (input : DeriveInput) (variants : List Variant)
    (g : Generated) (hdata : input.data = Data.enum variants)
    (hok : impl_delta input = Except.ok g) :
    g.impl.descType = RustType.path (input.ident ++ "Desc")
    ∧ g.impl.descBody = DescribeCode.enumMatch (enum_match_innards variants)
    ∧ g.defs.head? = some (definition (resolve_visibility input) "enum"
        (input.ident ++ "Desc") false (enum_desc_innards variants)) := by
  cases hga : gather_attrs input with
  | error e0 =>
      simp only [impl_delta, hga] at hok
      exact absurd hok (by simp)
  | ok attrs =>
      simp only [impl_delta, hga, hdata] at hok
      injection hok with hok
      subst hok
      obtain ⟨hvis, _, hdesc, _⟩ := gather_attrs_ok_fields input attrs hga
      refine ⟨?_, rfl, ?_⟩
      · rw [process_enum]
        simp [hdesc]
      · rw [process_enum]
        simp [hdesc, hvis, definition]

/-- Witness for C9: an enum carrying both `no_description` and
`compare_default` still gets the mirror Desc enum and the case-by-case
describe body. -/
theorem enum_description_mirror_witness :
    impl_delta w9_input = Except.ok w9_gen
    ∧ w9_gen.impl.descBody = DescribeCode.enumMatch (enum_match_innards w9_variants)
    ∧ w9_gen.impl.descType = RustType.path "ShapeDesc" := by
  refine ⟨rfl, ?_, ?_⟩
  · exact (enum_description_mirror w9_input w9_variants w9_gen rfl rfl).2.1
  · have h := (enum_description_mirror w9_input w9_variants w9_gen rfl rfl).1
    rw [h]
    rfl

theorem process_struct_vis (attrs : Attributes) (st : Fields) :
    (∀ d ∈ (process_struct attrs st).defs, d.vis = attrs.visibility)
    ∧ (process_struct attrs st).isUnchangedVis = none := by
  rcases heq : field_names_and_types st with _ | ⟨fi, _ | ⟨b, t⟩⟩ <;>
    simp [process_struct, heq, definition, define_enum_from_fields]

theorem process_enum_vis (attrs : Attributes) (variants : List Variant) :
    (∀ d ∈ (process_enum attrs variants).defs, d.vis = attrs.visibility)
    ∧ (process_enum attrs variants).isUnchangedVis = some attrs.visibility := by
  simp [process_enum, definition]

/-- C10: when a type carries both `delta_private` and `delta_public`, every
generated declaration is private — the private override is checked first and
wins. -/
theorem private_overrides_public (input : DeriveInput) (g : Generated)
    (hpriv : (has_attr input.attrs "delta_private").isSome = true)
    (hpub : (has_attr input.attrs "delta_public").isSome = true)
    (hok : impl_delta input = Except.ok g) :
    (∀ d ∈ g.defs, d.vis = Visibility.inherited)
    ∧ (g.isUnchangedVis = none ∨ g.isUnchangedVis = some Visibility.inherited) := by
  cases hga : gather_attrs input with
  | error e0 =>
      simp only [impl_delta, hga] at hok
      exact absurd hok (by simp)
  | ok attrs =>
      have hvis : attrs.visibility = Visibility.inherited := by
        rw [(gather_attrs_ok_fields input attrs hga).1, resolve_visibility, if_pos hpriv]
      cases hdata : input.data with
      | struct fields =>
          simp only [impl_delta, hga, hdata] at hok
          injection hok with hok
          subst hok
          obtain ⟨h1, h2⟩ := process_struct_vis attrs fields
          exact ⟨fun d hd => (h1 d hd).trans hvis, Or.inl h2⟩
      | enum variants =>
          simp only [impl_delta, hga, hdata] at hok
          injection hok with hok
          subst hok
          obtain ⟨h1, h2⟩ := process_enum_vis attrs variants
          refine ⟨fun d hd => (h1 d hd).trans hvis, Or.inr ?_⟩
          rw [h2, hvis]
      | union =>
          simp only [impl_delta, hga, hdata] at hok
          exact absurd hok (by simp)

/-- Witness for C10: a `pub` struct carrying both overrides gets private
generated declarations. -/
theorem private_overrides_public_witness :
    (has_attr w10_input.attrs "delta_private").isSome = true
    ∧ (has_attr w10_input.attrs "delta_public").isSome = true
    ∧ (∀ d ∈ w10_gen.defs, d.vis = Visibility.inherited)
    ∧ (w10_gen.isUnchangedVis = none ∨
        w10_gen.isUnchangedVis = some Visibility.inherited) := by
  have h := private_overrides_public w10_input w10_gen (by decide) (by decide) rfl
  exact ⟨by decide, by decide, h.1, h.2⟩

end DeltaDerive
